import Mathlib

/-!
Verification development for the M3ED optimization-diagnostics pipeline.

The development shallowly embeds the two Python scripts of the repository:
* `extract_m3ed_rmse.py` (the Extractor): scans result directories, extracts
  RMSE observations with the pattern rmse\s+([\d.]+) (case-insensitive),
  builds one summary row per experiment, reorders the columns and writes the
  CSV.
* `generate_comparison_tables.py` (the Reporter): parses experiment names into
  (sequence, variant) by suffix matching, pivots to sequence x variant ->
  median RMSE, and renders HTML comparison tables with outlier, best-in-row
  and percent-change classification.

Machine floating-point values are modelled as exact rationals.  The claims
under study concern comparison boundaries (10.0, ±1.0) that are exactly
representable in float64.  Wherever a concrete evaluation below must land
exactly on such a boundary, its inputs are dyadic and chosen so that the
float64 evaluation of the traced expressions produces exactly the rational
value the model computes; the remaining concrete inputs only exercise
comparisons whose outcome is unchanged by the float64 rounding of the
inputs.  Library (pandas/numpy/re) operations that the scripts rely on are
embedded with their documented semantics: raising operations come back as
`Except`.
-/

namespace M3ED

/-! ### Extractor: `parse_results_file` (regex scan and float conversion) -/

/-- Errors the Extractor can raise: `valueError` from `float(...)` on a
malformed captured token, and `keyError` from selecting absent columns of an
(empty) DataFrame. -/
inductive ExtractErr where
  | valueError
  | keyError
  deriving DecidableEq, Repr

/-- ASCII whitespace, the relevant fragment of the regex class \s. -/
def isWS (c : Char) : Bool :=
  c = ' ' || c = '\t' || c = '\n' || c = '\r' || c = '\x0b' || c = '\x0c'

/-- The character class [\d.] of the capture group. -/
def isDigitDot (c : Char) : Bool := c.isDigit || c = '.'

/-- Case-insensitive match of one pattern character (regex IGNORECASE). -/
def ciEq (c d : Char) : Bool := c.toLower = d.toLower

/-- Try to match the pattern rmse\s+([\d.]+) at the head of `cs`.  On success
return the captured token together with the unconsumed remainder.  The greedy
quantifiers need no backtracking here because the classes \s and [\d.] are
disjoint. -/
def matchRmseAt (cs : List Char) : Option (List Char × List Char) :=
  match cs with
  | c1 :: c2 :: c3 :: c4 :: rest =>
    if ciEq c1 'r' && ciEq c2 'm' && ciEq c3 's' && ciEq c4 'e' then
      let ws := rest.takeWhile isWS
      let rest2 := rest.dropWhile isWS
      if ws.isEmpty then none
      else
        let tok := rest2.takeWhile isDigitDot
        let rest3 := rest2.dropWhile isDigitDot
        if tok.isEmpty then none else some (tok, rest3)
    else none
  | _ => none

/-- One step of `re.findall`: scan left to right, at each position try the
pattern, on success emit the capture and resume after the match.  `fuel`
bounds the recursion by the length of the text. -/
def findallAux : Nat → List Char → List (List Char)
  | 0, _ => []
  | _ + 1, [] => []
  | fuel + 1, c :: cs =>
    match matchRmseAt (c :: cs) with
    | some (tok, rest) => tok :: findallAux fuel rest
    | none => findallAux fuel cs

/-- `re.findall(r'rmse\s+([\d.]+)', content, re.IGNORECASE)`. -/
def findallRmse (content : List Char) : List (List Char) :=
  findallAux content.length content

/-- Numeric value of a digit run (most significant first). -/
def digitsNat (ds : List Char) : ℕ :=
  ds.foldl (fun a c => 10 * a + (c.toNat - '0'.toNat)) 0

/-- Python `float(...)` restricted to tokens drawn from [\d.]+ : accepted iff
the token holds at least one digit and at most one dot; the value is the usual
decimal reading.  `none` models the raised `ValueError`. -/
def pyFloat (t : List Char) : Option ℚ :=
  if t.any (fun c => c.isDigit) && t.count '.' ≤ 1 then
    let ip := t.takeWhile (fun c => c != '.')
    let fp := (t.dropWhile (fun c => c != '.')).drop 1
    some ((digitsNat ip : ℚ) + (digitsNat fp : ℚ) / (10 : ℚ) ^ fp.length)
  else
    none

/-- The list comprehension `[float(r) for r in rmse_matches]`: evaluated left
to right, `none` as soon as one conversion raises. -/
def floatList : List (List Char) → Option (List ℚ)
  | [] => some []
  | t :: ts =>
    match pyFloat t with
    | none => none
    | some v =>
      match floatList ts with
      | none => none
      | some vs => some (v :: vs)

/-- `parse_results_file`: `none` input models a missing file (`os.path.exists`
false).  Every captured token goes through `float`; a malformed token raises
`ValueError`.  A file with no matches yields `None` in the source, modelled as
`.ok none`, exactly like the missing file. -/
def parse_results_file (content : Option (List Char)) :
    Except ExtractErr (Option (List ℚ)) :=
  match content with
  | none => .ok none
  | some text =>
    match floatList (findallRmse text) with
    | none => .error .valueError
    | some vals => .ok (if vals.isEmpty then none else some vals)

/-! ### Extractor: `scan_results` (summary rows) -/

/-- `np.sort` ascending, as used by `np.median`. -/
def npSorted (l : List ℚ) : List ℚ := l.insertionSort (· ≤ ·)

/-- `np.median`: mean of the two middle entries of the sorted data (they
coincide for odd length). -/
def np_median (l : List ℚ) : ℚ :=
  let s := npSorted l
  (s.getD ((l.length - 1) / 2) 0 + s.getD (l.length / 2) 0) / 2

/-- Median as the specification words it: the middle value for odd counts, the
average of the two middle values for even counts. -/
def median_spec (l : List ℚ) : ℚ :=
  let s := npSorted l
  if l.length % 2 = 1 then s.getD (l.length / 2) 0
  else (s.getD (l.length / 2 - 1) 0 + s.getD (l.length / 2) 0) / 2

/-- `np.min` over a nonempty list (0 as an irrelevant default). -/
def listMin : List ℚ → ℚ
  | [] => 0
  | x :: xs => xs.foldl min x

/-- `np.max` over a nonempty list (0 as an irrelevant default). -/
def listMax : List ℚ → ℚ
  | [] => 0
  | x :: xs => xs.foldl max x

/-- `np.mean`. -/
def listMean (l : List ℚ) : ℚ := l.sum / l.length

/-- The per-run column name `run_{i}`. -/
def runCol (i : ℕ) : String := "run_" ++ toString i

/-- One row of the ResultTable, as the dict built in `scan_results`: the seven
summary entries, then one `run_i` entry per observation in order. -/
structure SummaryRow where
  name : String
  num_runs : ℕ
  rmse_mean : ℚ
  rmse_median : ℚ
  rmse_min : ℚ
  rmse_max : ℚ
  rmse_last : ℚ
  runs : List (String × ℚ)
  deriving Repr, DecidableEq

/-- The row `scan_results` assembles for one experiment; only called on
nonempty observation lists (guarded by `if rmse_values:`), so the
`getLast?.getD` default is never taken. -/
def buildRow (name : String) (vals : List ℚ) : SummaryRow :=
  { name := name
    num_runs := vals.length
    rmse_mean := listMean vals
    rmse_median := np_median vals
    rmse_min := listMin vals
    rmse_max := listMax vals
    rmse_last := vals.getLast?.getD 0
    runs := (List.enumFrom 1 vals).map (fun p => (runCol p.1, p.2)) }

/-- `scan_results`: the input models the sorted `glob` result as pairs of
directory name and optional `results.txt` content.  Experiments whose parse
yields nothing are skipped; a `ValueError` from `float` aborts the whole
scan. -/
def scan_results (dirs : List (String × Option (List Char))) :
    Except ExtractErr (List SummaryRow) :=
  match dirs with
  | [] => .ok []
  | (dname, content) :: rest =>
    match parse_results_file content with
    | .error e => .error e
    | .ok none => scan_results rest
    | .ok (some vals) =>
      match scan_results rest with
      | .error e => .error e
      | .ok rows => .ok (buildRow dname vals :: rows)

/-! ### Extractor: module level (DataFrame, column reorder, CSV write) -/

/-- The fixed summary columns of the script. -/
def base_cols : List String :=
  ["name", "num_runs", "rmse_mean", "rmse_median", "rmse_min", "rmse_max",
   "rmse_last"]

/-- The dict keys of one row, in insertion order. -/
def rowColumns (r : SummaryRow) : List String :=
  base_cols ++ r.runs.map Prod.fst

/-- `pd.DataFrame(results).columns`: union of the rows' keys in order of first
appearance; in particular the empty row list gives an empty column index. -/
def dfColumnsOf (rows : List SummaryRow) : List String :=
  rows.foldl (fun acc r => acc ++ (rowColumns r).filter (fun c => ¬ c ∈ acc)) []

/-- `int(x.split('_')[1])` for a `run_i` column name. -/
def runIndexOf (c : String) : ℕ :=
  ((c.splitOn "_").getD 1 "").toList.foldl
    (fun a d => 10 * a + (d.toNat - '0'.toNat)) 0

/-- `sorted(run_cols, key=lambda x: int(x.split('_')[1]))` over the columns
starting with `run_`. -/
def run_cols_of (cols : List String) : List String :=
  (cols.filter (fun c => c.startsWith "run_")).insertionSort
    (fun a b => runIndexOf a ≤ runIndexOf b)

/-- `df = df[base_cols + run_cols]`: pandas raises `KeyError` when any
requested column is absent from the frame. -/
def reorder (rows : List SummaryRow) : Except ExtractErr (List String) :=
  let cols := dfColumnsOf rows
  let rc := run_cols_of cols
  let sel := base_cols ++ rc
  if sel.all (fun c => cols.contains c) then .ok sel else .error .keyError

/-- The Extractor's module-level flow after the scan: build the DataFrame,
reorder its columns, write the CSV (the write itself always succeeds once the
selection did, so the selected column list stands for the written file). -/
def extract_pipeline (dirs : List (String × Option (List Char))) :
    Except ExtractErr (List String) :=
  match scan_results dirs with
  | .error e => .error e
  | .ok rows => reorder rows

/-! ### Reporter: `parse_name` (variant suffix resolution) -/

/-- The fixed, priority-ordered variant suffix list of `parse_name` (longest
first in the source, to avoid shorter-marker collisions). -/
def variant_markers : List (List Char) :=
  ["_daac_depth_opt_log_mahalanobis_w50".toList,
   "_daac_depth_opt_log_mahalanobis_w30".toList,
   "_daac_depth_opt_mahalanobis_w1000".toList,
   "_daac_depth_opt_mahalanobis_w500".toList,
   "_daac_depth_opt_mahalanobis_w100".toList,
   "_daac_depth_opt_log_w100".toList,
   "_daac_depth_opt_w1000".toList,
   "_daac_depth_opt_w500".toList,
   "_daac_depth_opt_w100".toList,
   "_daac_rgd_inv".toList,
   "_daac_rgd_metric".toList,
   "_base".toList]

/-- `parse_name`: the first marker (in list order) that is a suffix of the
name wins; the sequence is the name with the marker stripped
(`name[:-len(marker)]`) and the variant is the marker without its leading
underscore (`marker[1:]`).  `none` models the `(None, None)` return. -/
def parse_name (name : List Char) : Option (List Char × List Char) :=
  (variant_markers.find? (fun m => m.isSuffixOf name)).map
    (fun m => (name.take (name.length - m.length), m.drop 1))

/-! ### Reporter: module level (pivot and sequence sort) -/

/-- Errors the Reporter can raise at module level: unpacking `zip(*...)` of an
empty frame, pivoting duplicate `(sequence, variant)` keys, and sorting an
index that mixes NaN with strings. -/
inductive ReportErr where
  | valueErrorUnpack
  | valueErrorDup
  | typeErrorSort
  deriving DecidableEq, Repr

/-- The `(sequence, variant)` key a row contributes to the pivot;
`(None, None)` becomes the pair of `none`s (pandas stores them as NaN
labels). -/
def parseKey (name : List Char) : Option (List Char) × Option (List Char) :=
  match parse_name name with
  | some (s, v) => (some s, some v)
  | none => (none, none)

/-- Lexicographic comparison on names, for Python's `sorted` over string
labels. -/
def lexLe (a b : List Char) : Bool :=
  match a, b with
  | [], _ => true
  | _ :: _, [] => false
  | x :: xs, y :: ys => if x = y then lexLe xs ys else decide (x < y)

/-- Comparison on index labels; the `none` branches are only reachable for a
singleton index, where `sorted` performs no comparison at all. -/
def labelLe (a b : Option (List Char)) : Bool :=
  match a, b with
  | none, _ => true
  | _, none => false
  | some x, some y => lexLe x y

/-- `sorted(pivot_df.index.tolist())` once the mixed-type `TypeError` has been
ruled out. -/
def sortLabels (ls : List (Option (List Char))) : List (Option (List Char)) :=
  ls.insertionSort (fun a b => labelLe a b = true)

/-- The Reporter's module-level flow up to `sequences`: the
`zip(*df['name'].apply(parse_name))` unpacking (raises `ValueError` on an
empty frame), the pivot (raises `ValueError` on duplicate
`(sequence, variant)` keys — NaN keys included, since pandas `pivot`, unlike
`pivot_table`, keeps NaN labels), and `sorted` over the row labels (raises
`TypeError` as soon as the float NaN label meets a string label, i.e. whenever
the index has at least two labels one of which is NaN). -/
def reporter_pipeline (rows : List (List Char × ℚ)) :
    Except ReportErr (List (Option (List Char))) :=
  if rows.isEmpty then .error .valueErrorUnpack
  else
    let keys := rows.map (fun r => parseKey r.1)
    if keys.Nodup then
      let labels := (keys.map Prod.fst).dedup
      if 2 ≤ labels.length ∧ none ∈ labels then .error .typeErrorSort
      else .ok (sortLabels labels)
    else .error .valueErrorDup

/-! ### Reporter: `generate_table_html` (cell rendering) -/

/-- `OUTLIER_THRESHOLD = 10.0`. -/
def OUTLIER_THRESHOLD : ℚ := 10

/-- The CSS class attached to a percent change:
`"improvement" if pct < -1 else ("degradation" if pct > 1 else "")`. -/
inductive PctClass where
  | improvement
  | degradation
  | neutral
  deriving DecidableEq, Repr

/-- The classification applied both to per-cell percent changes and to the
averages of the summary row. -/
def classifyPct (p : ℚ) : PctClass :=
  if p < -1 then .improvement else if p > 1 then .degradation else .neutral

/-- One `<td>` of a rendered table. -/
inductive Cell where
  | label (s : String)
  | dash
  | outlier
  | value (v : ℚ) (best : Bool) (ann : Option (ℚ × PctClass))
  | avg (v : ℚ) (cls : PctClass)
  deriving DecidableEq, Repr

/-- `row_values`: the per-row lookup restricted to the group's available
columns (`row_values` is populated only for `available_cols`, so a `base`
column outside the group is invisible to the baseline lookup). -/
def rowValues (cols : List String) (lk : String → Option ℚ) :
    String → Option ℚ :=
  fun c => if c ∈ cols then lk c else none

/-- `valid_values`: the present values of the row below the outlier threshold,
in column order. -/
def validValues (cols : List String) (rv : String → Option ℚ) : List ℚ :=
  (cols.filterMap rv).filter (fun v => v < OUTLIER_THRESHOLD)

/-- `min_val is not None and abs(val - min_val) < 0.0001`. -/
def bestOf (minv : Option ℚ) (v : ℚ) : Bool :=
  match minv with
  | some m => decide (|v - m| < 1 / 10000)
  | none => false

/-- Rendering of one data cell, following the branch structure of the source:
absent value -> `-`; value at or above the threshold -> outlier cell;
otherwise the value with the best-in-row flag, annotated with the percent
change against `base` exactly when the column is not `base` and the baseline
is present and below the threshold (the value itself already is). -/
def renderCell (rv : String → Option ℚ) (minv : Option ℚ) (col : String) :
    Cell :=
  match rv col with
  | none => .dash
  | some v =>
    if v ≥ OUTLIER_THRESHOLD then .outlier
    else
      match rv "base" with
      | some b =>
        if col ≠ "base" ∧ b < OUTLIER_THRESHOLD ∧ v < OUTLIER_THRESHOLD then
          let pct := (v - b) / b * 100
          .value v (bestOf minv v) (some (pct, classifyPct pct))
        else .value v (bestOf minv v) none
      | none => .value v (bestOf minv v) none

/-- One data row: the sequence label plus one cell per available column. -/
def dataRow (seq : String) (cols : List String) (lk : String → Option ℚ) :
    List Cell :=
  let rv := rowValues cols lk
  .label seq :: cols.map (renderCell rv (validValues cols rv).min?)

/-- The header row: `Sequence` plus one header per available column (the
cosmetic `replace/title` prettification of the header text is presentation
only and is not modelled). -/
def headerRow (cols : List String) : List Cell :=
  .label "Sequence" :: cols.map (fun c => .label c)

/-- The percent change the source appends to `pct_changes[col]` for one row,
when it computes one. -/
def rowPct (cols : List String) (lk : String → Option ℚ) (col : String) :
    Option ℚ :=
  let rv := rowValues cols lk
  match rv col with
  | none => none
  | some v =>
    if v ≥ OUTLIER_THRESHOLD then none
    else
      match rv "base" with
      | some b =>
        if col ≠ "base" ∧ b < OUTLIER_THRESHOLD ∧ v < OUTLIER_THRESHOLD then
          some ((v - b) / b * 100)
        else none
      | none => none

/-- `pct_changes[col]` after all sequences are processed. -/
def collectPcts (seqs : List String) (cols : List String)
    (lookup : String → String → Option ℚ) (col : String) : List ℚ :=
  seqs.filterMap (fun s => rowPct cols (lookup s) col)

/-- The trailing `Avg % Change vs Base` row: its label cell, the
unconditional `-` cell emitted for the baseline column, then one cell per
non-`base` column (the mean percent change when any was collected, `-`
otherwise). -/
def avgRow (cols : List String) (pcts : String → List ℚ) : List Cell :=
  .label "Avg % Change vs Base" :: .dash ::
    (cols.filter (fun c => c ≠ "base")).map (fun c =>
      if (pcts c).isEmpty then .dash
      else .avg (listMean (pcts c)) (classifyPct (listMean (pcts c))))

/-! ### Reporter: table configurations, generation loop and index page -/

/-- One entry of `tables_config`. -/
structure TableConfig where
  title : String
  columns : List String
  filename : String
  description : String
  deriving DecidableEq, Repr

/-- The five fixed comparison groups of the script (descriptions abbreviated
to their titles' files; their exact text plays no role in any claim). -/
def tables_config : List TableConfig :=
  [{ title := "Baseline vs Depth Optimization (and Log Opt)"
     columns := ["base", "daac_depth_opt_w100", "daac_depth_opt_w500",
                 "daac_depth_opt_w1000", "daac_depth_opt_log_w100"]
     filename := "baseline_vs_depth_opt.html"
     description := "Comparison of baseline with depth optimization variants (w100, w500, w1000) and log optimization." },
   { title := "Baseline vs RGD (Inverse + Metric)"
     columns := ["base", "daac_rgd_inv", "daac_rgd_metric"]
     filename := "baseline_vs_rgd.html"
     description := "Comparison of baseline with inverse depth RGD and metric RGD variants." },
   { title := "Baseline vs Mahalanobis Optimization"
     columns := ["base", "daac_depth_opt_mahalanobis_w100",
                 "daac_depth_opt_mahalanobis_w500",
                 "daac_depth_opt_mahalanobis_w1000",
                 "daac_depth_opt_log_mahalanobis_w30"]
     filename := "baseline_vs_mahal.html"
     description := "Comparison of baseline with Mahalanobis depth optimization variants." },
   { title := "Depth Opt vs Mahalanobis Opt"
     columns := ["base", "daac_depth_opt_w100", "daac_depth_opt_mahalanobis_w100",
                 "daac_depth_opt_w500", "daac_depth_opt_mahalanobis_w500",
                 "daac_depth_opt_w1000", "daac_depth_opt_mahalanobis_w1000"]
     filename := "depth_opt_vs_mahal.html"
     description := "Side-by-side comparison of regular depth optimization vs Mahalanobis optimization." },
   { title := "Baseline vs All Variants"
     columns := ["base", "daac_depth_opt_w100", "daac_depth_opt_w500",
                 "daac_depth_opt_w1000", "daac_depth_opt_log_w100",
                 "daac_depth_opt_mahalanobis_w100", "daac_depth_opt_mahalanobis_w500",
                 "daac_depth_opt_mahalanobis_w1000", "daac_depth_opt_log_mahalanobis_w30",
                 "daac_rgd_inv", "daac_rgd_metric"]
     filename := "baseline_vs_all.html"
     description := "Comparison of baseline with all available variants." }]

/-- `available_cols = [c for c in columns if c in pivot_df.columns]`. -/
def available_cols (pivotCols : List String) (columns : List String) :
    List String :=
  columns.filter (fun c => c ∈ pivotCols)

/-- `generate_table_html`: `none` is the early return (skip with a warning, no
file written) when no requested column is available; otherwise the rendered
table (header, data rows, trailing average row). -/
def generate_table_html (pivotCols : List String) (seqs : List String)
    (lookup : String → String → Option ℚ) (cfg : TableConfig) :
    Option (List (List Cell)) :=
  let avail := available_cols pivotCols cfg.columns
  if avail.isEmpty then none
  else
    some (headerRow avail ::
      seqs.map (fun s => dataRow s avail (lookup s)) ++
      [avgRow avail (collectPcts seqs avail lookup)])

/-- The filenames actually written by the generation loop: one per
configuration whose table was generated. -/
def writtenFiles (pivotCols : List String) (seqs : List String)
    (lookup : String → String → Option ℚ) : List String :=
  (tables_config.filter
    (fun cfg => (generate_table_html pivotCols seqs lookup cfg).isSome)).map
    (fun cfg => cfg.filename)

/-- `tables_list`, appended unconditionally for every configuration in the
loop, and passed as-is to `generate_index_html`: the entries of the rendered
index page. -/
def indexEntries (_pivotCols : List String) (_seqs : List String)
    (_lookup : String → String → Option ℚ) : List (String × String × String) :=
  tables_config.map (fun cfg => (cfg.title, cfg.filename, cfg.description))

/-! ### Helper lemmas -/

/-- `find?` returns the element when it is the unique satisfier in the list. -/
theorem find?_eq_some_of_unique {α : Type} {p : α → Bool} {l : List α} {a : α}
    (ha : a ∈ l) (hpa : p a = true)
    (uniq : ∀ b ∈ l, p b = true → b = a) : l.find? p = some a := by
  induction l with
  | nil => cases ha
  | cons hd tl ih =>
    by_cases hp : p hd = true
    · have h1 : hd = a := uniq hd (List.mem_cons_self hd tl) hp
      subst h1
      exact List.find?_cons_of_pos tl hp
    · have hne : a ≠ hd := fun h => hp (h ▸ hpa)
      have ha' : a ∈ tl := by
        rcases List.mem_cons.mp ha with h | h
        · exact absurd h hne
        · exact h
      have huniq' : ∀ b ∈ tl, p b = true → b = a := fun b hb hpb =>
        uniq b (List.mem_cons_of_mem hd hb) hpb
      rw [List.find?_cons_of_neg tl (by simpa using hp)]
      exact ih ha' huniq'

/-- No variant marker is a proper suffix of another: the twelve suffixes are
pairwise suffix-incomparable. -/
theorem markers_suffix_incomparable : ∀ a ∈ variant_markers, ∀ b ∈ variant_markers,
    a.isSuffixOf b = true → a = b := by decide

/-- Two suffixes of the same marker list entry coincide when both are known
markers. -/
theorem markers_suffix_unique {name a b : List Char}
    (ha : a ∈ variant_markers) (hb : b ∈ variant_markers)
    (hsa : a <:+ name) (hsb : b <:+ name) : a = b := by
  rcases List.suffix_or_suffix_of_suffix hsa hsb with h | h
  · exact markers_suffix_incomparable a ha b hb (List.isSuffixOf_iff_suffix.mpr h)
  · exact (markers_suffix_incomparable b hb a ha (List.isSuffixOf_iff_suffix.mpr h)).symm

/-- `np.median` agrees with the specification's wording of the median. -/
theorem np_median_eq_median_spec (l : List ℚ) : np_median l = median_spec l := by
  by_cases h2 : l.length % 2 = 1
  · have hidx : (l.length - 1) / 2 = l.length / 2 := by omega
    simp only [np_median, median_spec, hidx, if_pos h2]
    ring
  · have hidx : (l.length - 1) / 2 = l.length / 2 - 1 := by omega
    simp only [np_median, median_spec, hidx, if_neg h2]

/-- Evaluation rule for one annotated cell: when the column is not `base`,
the value and the baseline are present and both below the threshold, the
rendered cell carries the value, the best-in-row flag, and the percent change
with its class. -/
theorem renderCell_eq_value_ann (rv : String → Option ℚ) (minv : Option ℚ)
    (col : String) (v b : ℚ) (hcol : col ≠ "base") (hv : rv col = some v)
    (hb : rv "base" = some b) (hv10 : v < OUTLIER_THRESHOLD)
    (hb10 : b < OUTLIER_THRESHOLD) :
    renderCell rv minv col =
      Cell.value v (bestOf minv v)
        (some ((v - b) / b * 100, classifyPct ((v - b) / b * 100))) := by
  simp only [renderCell, hv, hb]
  rw [if_neg (not_le.mpr hv10), if_pos ⟨hcol, hb10, hv10⟩]

/-- Filtering away `base` removes exactly `count "base"` entries. -/
theorem length_filter_ne_base (cols : List String) :
    (cols.filter (fun c => c ≠ "base")).length + cols.count "base" = cols.length := by
  induction cols with
  | nil => simp
  | cons c tl ih =>
    simp only [ne_eq, decide_not] at ih ⊢
    by_cases hc : c = "base"
    · subst hc
      simp [List.filter_cons, List.count_cons]
      omega
    · simp [List.filter_cons, List.count_cons, hc]
      omega

/-! ### C1 -/

/-- C1: the claim states that for the empty list of extracted rows the
column-reordering and CSV-writing steps complete normally.  The scan itself
does return the empty row list, but the module-level reorder
`df[base_cols + run_cols]` then raises `KeyError`, because the DataFrame built
from an empty list has no columns at all; the run never reaches the CSV
write.  This theorem evaluates the embedded code at the failing input (a base
directory with no qualifying subdirectory). -/
theorem C1_empty_input_reorder_raises :
    scan_results [] = .ok [] ∧
    extract_pipeline [] = .error ExtractErr.keyError := by
  exact ⟨rfl, rfl⟩

/-! ### C6 -/

/-- C6: for every experiment name that ends with a known variant suffix, the
resolved variant is that full suffix minus its leading underscore, and the
sequence is the remaining prefix — never a shorter marker, independent of
input order (no marker is a suffix of another, so the match is unique and the
priority order cannot pick anything else). -/
theorem C6_longest_suffix_resolution (pre m : List Char)
    (hm : m ∈ variant_markers) :
    parse_name (pre ++ m) = some (pre, m.drop 1) := by
  have hsuf : m.isSuffixOf (pre ++ m) = true :=
    List.isSuffixOf_iff_suffix.mpr (List.suffix_append pre m)
  have huniq : ∀ m' ∈ variant_markers,
      m'.isSuffixOf (pre ++ m) = true → m' = m := by
    intro m' hm' hs'
    exact markers_suffix_unique hm' hm
      (List.isSuffixOf_iff_suffix.mp hs') (List.suffix_append pre m)
  have hfind : variant_markers.find? (fun m' => m'.isSuffixOf (pre ++ m)) = some m :=
    find?_eq_some_of_unique hm hsuf huniq
  simp [parse_name, hfind, List.length_append, Nat.add_sub_cancel, List.take_left]

/-- C6 witness: the name `seq_daac_depth_opt_w100` resolves to the variant
`daac_depth_opt_w100` with sequence `seq`. -/
theorem C6_witness :
    parse_name ("seq".toList ++ "_daac_depth_opt_w100".toList) =
      some ("seq".toList, "daac_depth_opt_w100".toList) := by
  have h := C6_longest_suffix_resolution "seq".toList "_daac_depth_opt_w100".toList
    (by decide)
  exact h.trans (by decide)

/-! ### C7 -/

/-- C7: for every experiment with N ≥ 1 observations, the produced summary row
has `num_runs = N`, `rmse_last` the last observation, `rmse_median` the
standard median (average of the two middle values for even N), and exactly N
run columns named `run_1 .. run_N` carrying the observations in order. -/
theorem C7_summary_row_invariants (name : String) (vals : List ℚ)
    (h : vals ≠ []) :
    (buildRow name vals).num_runs = vals.length ∧
    (buildRow name vals).rmse_last = vals.getLast h ∧
    (buildRow name vals).rmse_median = median_spec vals ∧
    (buildRow name vals).runs.map Prod.snd = vals ∧
    (buildRow name vals).runs.map Prod.fst =
      (List.range vals.length).map (fun i => runCol (i + 1)) := by
  refine ⟨rfl, ?_, np_median_eq_median_spec vals, ?_, ?_⟩
  · simp [buildRow, List.getLast?_eq_getLast_of_ne_nil h]
  · show ((List.enumFrom 1 vals).map (fun p => (runCol p.1, p.2))).map Prod.snd = vals
    rw [List.map_map]
    have h1 : (Prod.snd ∘ fun p : ℕ × ℚ => (runCol p.1, p.2)) = Prod.snd := rfl
    rw [h1, List.enumFrom_map_snd]
  · show ((List.enumFrom 1 vals).map (fun p => (runCol p.1, p.2))).map Prod.fst =
      (List.range vals.length).map (fun i => runCol (i + 1))
    rw [List.map_map]
    have h1 : (Prod.fst ∘ fun p : ℕ × ℚ => (runCol p.1, p.2)) = (runCol ∘ Prod.fst) :=
      rfl
    rw [h1, ← List.map_map, List.enumFrom_map_fst, List.range'_eq_map_range,
      List.map_map]
    exact List.map_congr_left (fun i _ => congrArg runCol (Nat.add_comm 1 i))

/-- C7 witness: the spec's end-to-end experiment `spot_seq1_base` with
observations 0.52 and 0.48 (even N): two runs, last 0.48, median 0.50, run
columns `run_1`, `run_2`. -/
theorem C7_witness :
    (buildRow "spot_seq1_base" [13/25, 12/25]).num_runs = 2 ∧
    (buildRow "spot_seq1_base" [13/25, 12/25]).rmse_last = 12/25 ∧
    (buildRow "spot_seq1_base" [13/25, 12/25]).rmse_median = 1/2 ∧
    (buildRow "spot_seq1_base" [13/25, 12/25]).runs.map Prod.fst =
      ["run_1", "run_2"] := by
  have h := C7_summary_row_invariants "spot_seq1_base" [13/25, 12/25] (by simp)
  obtain ⟨h1, h2, h3, _, h5⟩ := h
  refine ⟨h1, by rw [h2]; rfl, ?_, by rw [h5]; rfl⟩
  rw [h3]
  norm_num [median_spec, npSorted, List.insertionSort, List.orderedInsert]

/-! ### C2 -/

/-- C2 counterexample: the claim states a percent change of exactly −1.0 is
classified as improvement (≤ −1%).  At baseline 6.25 (= 25/4) and value
6.1875 (= 99/16) the percent change is exactly −1, yet the rendered cell
carries the neutral class: the source compares strictly (`pct_change < -1`).
Both inputs are dyadic, so float64 represents them exactly, and the machine
evaluation `((6.1875 - 6.25) / 6.25) * 100` also yields exactly `-1.0` (the
subtraction is exact, the quotient rounds to the double nearest −0.01, and
the product rounds back to −1.0): the rational model and the real execution
agree at this input. -/
theorem C2_counterexample_boundary_neutral :
    dataRow "seq1" ["base", "daac_rgd_inv"]
      (fun c => if c = "base" then some (25 / 4) else
        if c = "daac_rgd_inv" then some (99 / 16) else none) =
      [Cell.label "seq1", Cell.value (25 / 4) false none,
       Cell.value (99 / 16) true (some (-1, PctClass.neutral))] ∧
    PctClass.neutral ≠ PctClass.improvement := by
  constructor
  · simp [dataRow, renderCell, rowValues, validValues, bestOf, classifyPct,
      OUTLIER_THRESHOLD, List.filterMap_cons, List.min?]
    norm_num
    rw [show |(1 : ℚ) / 16| = 1 / 16 from abs_of_pos (by norm_num)]
    norm_num
  · simp

/-- C2 amended: for every rendered cell with a present, non-outlier value and
a present, non-outlier baseline, the percent change is classified as
improvement iff it is strictly below −1, as degradation iff strictly above +1,
and as neutral otherwise; exactly ±1.0 is neutral. -/
theorem C2_strict_percent_classification (rv : String → Option ℚ)
    (minv : Option ℚ) (col : String) (v p : ℚ) (best : Bool) (cls : PctClass)
    (h : renderCell rv minv col = Cell.value v best (some (p, cls))) :
    (cls = PctClass.improvement ↔ p < -1) ∧
    (cls = PctClass.degradation ↔ 1 < p) ∧
    (cls = PctClass.neutral ↔ -1 ≤ p ∧ p ≤ 1) := by
  have hmain : cls = classifyPct p := by
    unfold renderCell at h
    split at h
    · exact absurd h (by simp)
    · split at h
      · exact absurd h (by simp)
      · split at h
        · split at h
          · simp only [Cell.value.injEq, Option.some.injEq, Prod.mk.injEq] at h
            obtain ⟨-, -, hp, hcls⟩ := h
            rw [hp] at hcls
            exact hcls.symm
          · exact absurd h (by simp)
        · exact absurd h (by simp)
  subst hmain
  unfold classifyPct
  split_ifs with h1 h2
  · exact ⟨by simp [h1], by simp; linarith, by simp; intro hle; linarith⟩
  · exact ⟨by simp; linarith, by simp [h2], by simp; intro hle; linarith⟩
  · exact ⟨by simp; linarith, by simp; linarith, by simp; constructor <;> linarith⟩

/-- C2 witness: a cell with baseline 1 and value 0.5 has percent change −50,
and the amended classification places it strictly below −1
(improvement). -/
theorem C2_strict_percent_classification_witness :
    ((PctClass.improvement = PctClass.improvement) ↔ ((-50 : ℚ) < -1)) ∧
    ((PctClass.improvement = PctClass.degradation) ↔ (1 < (-50 : ℚ))) ∧
    ((PctClass.improvement = PctClass.neutral) ↔
      ((-1 : ℚ) ≤ -50 ∧ (-50 : ℚ) ≤ 1)) := by
  have h := renderCell_eq_value_ann
    (fun c => if c = "base" then some 1 else if c = "x" then some ((1 : ℚ) / 2) else none)
    none "x" (1 / 2) 1 (by decide) (by rfl) (by rfl)
    (by norm_num [OUTLIER_THRESHOLD]) (by norm_num [OUTLIER_THRESHOLD])
  rw [show ((1 : ℚ) / 2 - 1) / 1 * 100 = -50 by norm_num,
    show classifyPct (-50) = PctClass.improvement by norm_num [classifyPct]] at h
  exact C2_strict_percent_classification
    (fun c => if c = "base" then some 1 else if c = "x" then some ((1 : ℚ) / 2) else none)
    none "x" (1 / 2) (-50) (bestOf none (1 / 2)) PctClass.improvement h

/-! ### C3 -/

/-- C3 counterexample: with only the `daac_rgd_inv` variant present in the
pivot, the depth-optimization group resolves no columns, is skipped and gets
no HTML file — yet its entry still appears on the index page, because the loop
appends to `tables_list` unconditionally. -/
theorem C3_counterexample_skipped_group_listed :
    writtenFiles ["daac_rgd_inv"] [] (fun _ _ => none) =
      ["baseline_vs_rgd.html", "baseline_vs_all.html"] ∧
    "baseline_vs_depth_opt.html" ∉ writtenFiles ["daac_rgd_inv"] [] (fun _ _ => none) ∧
    ("Baseline vs Depth Optimization (and Log Opt)", "baseline_vs_depth_opt.html",
      "Comparison of baseline with depth optimization variants (w100, w500, w1000) and log optimization.")
      ∈ indexEntries ["daac_rgd_inv"] [] (fun _ _ => none) := by
  refine ⟨by decide, by decide, by decide⟩

/-- C3 amended: the index page lists every configured group unconditionally —
including groups that were skipped with no HTML file written — while the set
of written files is exactly the set of groups with a nonempty resolved column
list. -/
theorem C3_index_lists_all_configured_groups
    (pivotCols seqs : List String) (lookup : String → String → Option ℚ) :
    indexEntries pivotCols seqs lookup =
      tables_config.map (fun c => (c.title, c.filename, c.description)) ∧
    writtenFiles pivotCols seqs lookup =
      (tables_config.filter
        (fun cfg => !(available_cols pivotCols cfg.columns).isEmpty)).map
        (fun cfg => cfg.filename) := by
  refine ⟨rfl, ?_⟩
  unfold writtenFiles
  congr 1
  apply List.filter_congr
  intro cfg _
  unfold generate_table_html
  cases he : (available_cols pivotCols cfg.columns).isEmpty <;> simp [he]

/-! ### C4 -/

/-- C4 counterexample: the claim states unmapped names are excluded from the
pivot and cause no error.  In fact a single unmapped name (`weird`) next to a
mapped one puts a NaN label in the pivot index and the subsequent
`sorted(pivot_df.index.tolist())` raises `TypeError` (float NaN is not
comparable with `str`). -/
theorem C4_counterexample_unmapped_raises :
    reporter_pipeline [("spot_seq1_base".toList, 1 / 2), ("weird".toList, 2 / 5)] =
      .error ReportErr.typeErrorSort := by
  rfl

/-- C4 amended: a name ending in no known variant suffix parses to
`(None, None)`, but such rows are not excluded from the pivot: whenever the
input holds at least one unmapped and one mapped name, the Reporter raises
(either the duplicate-key `ValueError` of `pivot` or the mixed-type
`TypeError` of the sequence sort) instead of rendering. -/
theorem C4_unmapped_rows_break_pipeline :
    (∀ name : List Char,
      (∀ m ∈ variant_markers, m.isSuffixOf name = false) →
        parse_name name = none) ∧
    (∀ rows : List (List Char × ℚ),
      (∃ r ∈ rows, parse_name r.1 = none) →
      (∃ r ∈ rows, parse_name r.1 ≠ none) →
      ∃ e, reporter_pipeline rows = .error e) := by
  constructor
  · intro name hsuf
    have hfind : variant_markers.find? (fun m => m.isSuffixOf name) = none :=
      List.find?_eq_none.mpr (fun m hm => by simp [hsuf m hm])
    simp [parse_name, hfind]
  · rintro rows ⟨r, hr, hrn⟩ ⟨r', hr', hrn'⟩
    unfold reporter_pipeline
    rw [if_neg (by simp [List.isEmpty_iff, List.ne_nil_of_mem hr])]
    by_cases hnd : (rows.map (fun r => parseKey r.1)).Nodup
    · rw [if_pos hnd]
      have h1 : (none : Option (List Char)) ∈
          ((rows.map (fun r => parseKey r.1)).map Prod.fst).dedup := by
        rw [List.mem_dedup]
        exact List.mem_map.mpr ⟨parseKey r.1,
          List.mem_map.mpr ⟨r, hr, rfl⟩, by simp [parseKey, hrn]⟩
      obtain ⟨⟨s, v⟩, hsv⟩ : ∃ p, parse_name r'.1 = some p :=
        Option.ne_none_iff_exists'.mp hrn'
      have h2 : (some s : Option (List Char)) ∈
          ((rows.map (fun r => parseKey r.1)).map Prod.fst).dedup := by
        rw [List.mem_dedup]
        exact List.mem_map.mpr ⟨parseKey r'.1,
          List.mem_map.mpr ⟨r', hr', rfl⟩, by simp [parseKey, hsv]⟩
      have hlen : 2 ≤ ((rows.map (fun r => parseKey r.1)).map Prod.fst).dedup.length := by
        rcases hdl : ((rows.map (fun r => parseKey r.1)).map Prod.fst).dedup with
          _ | ⟨a, _ | ⟨b, t⟩⟩
        · rw [hdl] at h1; cases h1
        · rw [hdl] at h1 h2
          have e1 : a = none := (List.mem_singleton.mp h1).symm
          have e2 : a = some s := (List.mem_singleton.mp h2).symm
          rw [e1] at e2
          cases e2
        · rw [hdl, List.length_cons, List.length_cons]
          omega
      rw [if_pos ⟨hlen, h1⟩]
      exact ⟨_, rfl⟩
    · rw [if_neg hnd]
      exact ⟨_, rfl⟩

/-- C4 witness: the name `weird` matches no marker and parses to nothing, and
the two-row input pairing it with the mapped `spot_seq1_base` makes the
Reporter raise. -/
theorem C4_witness :
    parse_name "weird".toList = none ∧
    ∃ e, reporter_pipeline
      [("spot_seq1_base".toList, 1 / 2), ("weird".toList, 2 / 5)] = .error e := by
  constructor
  · exact C4_unmapped_rows_break_pipeline.1 "weird".toList (by decide)
  · exact C4_unmapped_rows_break_pipeline.2 _
      ⟨("weird".toList, 2 / 5),
        List.mem_cons_of_mem _ (List.mem_cons_self _ _), by decide⟩
      ⟨("spot_seq1_base".toList, 1 / 2), List.mem_cons_self _ _, by decide⟩

/-! ### C5 -/

/-- C5: a present pivoted value renders as an outlier iff it is ≥ 10.0
(inclusive boundary); every value entering the best-in-row pool is strictly
below the threshold; and a cell only carries a percent-change annotation when
both the value and the baseline are strictly below the threshold. -/
theorem C5_outlier_inclusive_threshold (rv : String → Option ℚ)
    (minv : Option ℚ) (col : String) (v : ℚ) (hv : rv col = some v) :
    (renderCell rv minv col = Cell.outlier ↔ OUTLIER_THRESHOLD ≤ v) ∧
    (∀ cols : List String, ∀ w ∈ validValues cols rv, w < OUTLIER_THRESHOLD) ∧
    (∀ best p cls, renderCell rv minv col = Cell.value v best (some (p, cls)) →
      v < OUTLIER_THRESHOLD ∧
        ∃ b, rv "base" = some b ∧ b < OUTLIER_THRESHOLD) := by
  refine ⟨?_, ?_, ?_⟩
  · by_cases h10 : OUTLIER_THRESHOLD ≤ v
    · simp [renderCell, hv, h10]
    · simp only [renderCell, hv, ge_iff_le, if_neg h10]
      constructor
      · intro hcell
        exfalso
        split at hcell
        · split at hcell <;> cases hcell
        · cases hcell
      · intro hT
        exact absurd hT h10
  · intro cols w hw
    simpa using (List.mem_filter.mp hw).2
  · intro best p cls hcell
    simp only [renderCell, hv] at hcell
    split at hcell
    · cases hcell
    · rename_i h10
      refine ⟨not_le.mp h10, ?_⟩
      split at hcell
      · rename_i b heq
        split at hcell
        · rename_i hcond
          exact ⟨b, heq, hcond.2.1⟩
        · simp at hcell
      · simp at hcell

/-- C5 witness: a value of exactly 10.0 renders as an outlier; 9.9999 does
not. -/
theorem C5_witness :
    renderCell (fun c => if c = "x" then some 10 else none) none "x" =
      Cell.outlier ∧
    renderCell (fun c => if c = "x" then some (99999 / 10000) else none) none "x" ≠
      Cell.outlier := by
  constructor
  · exact ((C5_outlier_inclusive_threshold
      (fun c => if c = "x" then some 10 else none) none "x" 10 (by rfl)).1).mpr
      (by norm_num [OUTLIER_THRESHOLD])
  · intro hc
    have h10 := ((C5_outlier_inclusive_threshold
      (fun c => if c = "x" then some (99999 / 10000) else none) none "x"
      (99999 / 10000) (by rfl)).1).mp hc
    norm_num [OUTLIER_THRESHOLD] at h10

/-! ### C8 -/

/-- C8: for every cell with present, non-outlier value v and present,
non-outlier baseline b, the annotated percent change is exactly
(v − b) / b × 100, carrying the classification of that quantity. -/
theorem C8_percent_change_formula (rv : String → Option ℚ) (minv : Option ℚ)
    (col : String) (v b : ℚ) (hcol : col ≠ "base") (hv : rv col = some v)
    (hb : rv "base" = some b) (hv10 : v < OUTLIER_THRESHOLD)
    (hb10 : b < OUTLIER_THRESHOLD) :
    renderCell rv minv col =
      Cell.value v (bestOf minv v)
        (some ((v - b) / b * 100, classifyPct ((v - b) / b * 100))) :=
  renderCell_eq_value_ann rv minv col v b hcol hv hb hv10 hb10

/-- C8 witness: baseline 1.0 with value 0.5 is annotated −50.0 (improvement),
and with value 2.0 is annotated +100.0 (degradation). -/
theorem C8_witness :
    renderCell
      (fun c => if c = "base" then some 1 else if c = "x" then some ((1 : ℚ) / 2) else none)
      none "x" = Cell.value (1 / 2) false (some (-50, PctClass.improvement)) ∧
    renderCell
      (fun c => if c = "base" then some 1 else if c = "y" then some (2 : ℚ) else none)
      none "y" = Cell.value 2 false (some (100, PctClass.degradation)) := by
  constructor
  · have h := C8_percent_change_formula
      (fun c => if c = "base" then some 1 else if c = "x" then some ((1 : ℚ) / 2) else none)
      none "x" (1 / 2) 1 (by decide) (by rfl) (by rfl)
      (by norm_num [OUTLIER_THRESHOLD]) (by norm_num [OUTLIER_THRESHOLD])
    rw [h, show ((1 : ℚ) / 2 - 1) / 1 * 100 = -50 by norm_num,
      show classifyPct (-50) = PctClass.improvement by norm_num [classifyPct]]
    rfl
  · have h := C8_percent_change_formula
      (fun c => if c = "base" then some 1 else if c = "y" then some (2 : ℚ) else none)
      none "y" 2 1 (by decide) (by rfl) (by rfl)
      (by norm_num [OUTLIER_THRESHOLD]) (by norm_num [OUTLIER_THRESHOLD])
    rw [h, show ((2 : ℚ) - 1) / 1 * 100 = 100 by norm_num,
      show classifyPct 100 = PctClass.degradation by norm_num [classifyPct]]
    rfl

/-! ### C9 -/

/-- C9: result-file parsing is not total over pattern matches — a captured
token that is not a valid decimal literal (`1.2.3`, `...`) makes the `float`
conversion raise `ValueError` inside `parse_results_file` instead of skipping
the experiment, while contents with no match (or a missing file) take the
skip path and a well-formed match is converted normally. -/
theorem C9_malformed_token_raises :
    parse_results_file (some "rmse 1.2.3".toList) = .error ExtractErr.valueError ∧
    parse_results_file (some "rmse ...".toList) = .error ExtractErr.valueError ∧
    parse_results_file (some "no matches here".toList) = .ok none ∧
    parse_results_file none = .ok none ∧
    parse_results_file (some "RMSE 0.5".toList) = .ok (some [1 / 2]) := by
  refine ⟨by rfl, by rfl, by rfl, by rfl, ?_⟩
  have hf : findallRmse "RMSE 0.5".toList = [['0', '.', '5']] := by decide
  have h1 : (['0', '.', '5'].takeWhile (fun c => c != '.')) = ['0'] := by decide
  have h2 : ((['0', '.', '5'].dropWhile (fun c => c != '.')).drop 1) = ['5'] := by
    decide
  have h3 : digitsNat ['0'] = 0 := by decide
  have h4 : digitsNat ['5'] = 5 := by decide
  have hp : pyFloat ['0', '.', '5'] = some (1 / 2) := by
    rw [pyFloat, if_pos (by decide)]
    simp only [h1, h2, h3, h4]
    norm_num
  simp only [parse_results_file]
  rw [hf]
  simp only [floatList, hp]
  rfl

/-! ### C10 -/

/-- C10: when a group's resolved column list is non-empty and lacks `base`,
the trailing average row has 2 + (number of columns) cells — label,
unconditional `-` baseline cell, and one per column — while the header and
every data row have 1 + (number of columns); with `base` resolved exactly once
the counts agree. -/
theorem C10_avg_row_cell_count :
    (∀ (cols : List String) (pcts : String → List ℚ),
      "base" ∉ cols → cols ≠ [] →
      (avgRow cols pcts).length = 2 + cols.length ∧
      (headerRow cols).length = 1 + cols.length ∧
      ∀ (seq : String) (lk : String → Option ℚ),
        (dataRow seq cols lk).length = 1 + cols.length) ∧
    (∀ (cols : List String) (pcts : String → List ℚ),
      cols.count "base" = 1 →
      (avgRow cols pcts).length = 1 + cols.length) := by
  constructor
  · intro cols pcts hb _
    refine ⟨?_, by simp [headerRow, Nat.add_comm], fun seq lk => by
      simp [dataRow, Nat.add_comm]⟩
    have hfilter : cols.filter (fun c => c ≠ "base") = cols :=
      List.filter_eq_self.mpr (fun c hc => by
        have hcb : c ≠ "base" := fun h => hb (h ▸ hc)
        simpa using hcb)
    simp only [avgRow, List.length_cons, List.length_map]
    rw [hfilter]
    omega
  · intro cols pcts hcount
    have h := length_filter_ne_base cols
    rw [hcount] at h
    simp only [avgRow, List.length_cons, List.length_map]
    omega

/-- C10 witness: for the base-less column list `[daac_rgd_inv]` the average
row has 3 cells against 2 for the header and the data row; with
`[base, daac_rgd_inv]` the average row has 3 cells like every other row. -/
theorem C10_witness :
    (avgRow ["daac_rgd_inv"] (fun _ => [])).length = 2 + 1 ∧
    (headerRow ["daac_rgd_inv"]).length = 1 + 1 ∧
    (dataRow "s" ["daac_rgd_inv"] (fun _ => none)).length = 1 + 1 ∧
    (avgRow ["base", "daac_rgd_inv"] (fun _ => [])).length = 1 + 2 := by
  obtain ⟨hmain, hbase⟩ := C10_avg_row_cell_count
  obtain ⟨a1, a2, a3⟩ := hmain ["daac_rgd_inv"] (fun _ => [])
    (by decide) (by simp)
  exact ⟨a1, a2, a3 "s" (fun _ => none),
    hbase ["base", "daac_rgd_inv"] (fun _ => []) (by decide)⟩

end M3ED
